import Mathlib

/-!
Shallow embedding of `src/voltdb/fastserializer.go`: the VoltDB wire-type
codec.  Machine integers are modelled as `Nat`/`Int` with explicit
truncation, bytes as `Nat` values below 256, Go strings and `[]byte`
values as byte lists, and 64-bit floats as their IEEE-754 bit patterns
(`Nat` below `2 ^ 64`).

The `io.Reader` supplied to the read functions is modelled as a list of
byte chunks: a single call to `Read` fills the caller's buffer from the
front chunk only, so a multi-chunk source models a reader that delivers
fewer bytes than requested per call (a chunked or partial-fill source),
while a one-chunk source models a fully buffered reader.  An exhausted
source makes `Read` report `io.EOF`.  The `io.Writer` is modelled as a
sink holding the bytes written so far plus a plan of per-call success
flags: a `false` flag makes that `Write` call fail without writing.
-/

namespace Voltdb

/-- Wire type tag constants from the fastserializer constant block. -/
def vt_ARRAY : Int := -99

def vt_NULL : Int := 1

def vt_BOOL : Int := 3

def vt_SHORT : Int := 4

def vt_INT : Int := 5

def vt_LONG : Int := 6

def vt_FLOAT : Int := 8

def vt_STRING : Int := 9

def vt_TIMESTAMP : Int := 11

def vt_TABLE : Int := 21

def vt_DECIMAL : Int := 22

def vt_VARBIN : Int := 25

/-- `protoVersion` : the implemented VoltDB wireprotocol version. -/
def protoVersion : Nat := 1

/-- A byte source: the chunks a sequential reader will deliver, in order. -/
abbrev Source := List (List Nat)

/-- `2 ^ w`, the modulus of a `w`-bit machine integer. -/
def pow2 (w : Nat) : Nat := 2 ^ w

/-- One raw `Read` call into a zeroed buffer of size `k`: delivers at most
`k` bytes from the front chunk; `none` models an `io.EOF`/error return on
an exhausted source.  A zero-sized buffer reads nothing and succeeds. -/
def readN (k : Nat) (src : Source) : Option (List Nat × Source) :=
  if k = 0 then some ([], src)
  else
    match src with
    | [] => none
    | c :: rest =>
        let got := c.take k
        let c2 := c.drop k
        some (got, if c2 = [] then rest else c2 :: rest)

/-- The contents of a `w`-byte stack buffer after a `Read` that delivered
`bs`: the bytes delivered followed by the untouched zero bytes. -/
def pad (w : Nat) (bs : List Nat) : List Nat :=
  bs ++ List.replicate (w - bs.length) 0

/-- Big-endian value of a byte list (`binary.BigEndian.UintNN`). -/
def beUint (bs : List Nat) : Nat :=
  bs.foldl (fun a b => a * 256 + b) 0

/-- Big-endian bytes of the low `w` bytes of `n`
(`binary.BigEndian.PutUintNN`). -/
def beBytes : Nat → Nat → List Nat
  | 0, _ => []
  | w + 1, n => beBytes w (n / 256) ++ [n % 256]

/-- Go conversion `uintW(v)` from a signed integer value. -/
def toUnsigned (w : Nat) (v : Int) : Nat :=
  (v % ((pow2 w : Nat) : Int)).toNat

/-- Go conversion `intW(n)` from the `w`-bit unsigned value `n`. -/
def toSigned (w : Nat) (n : Nat) : Int :=
  if n < pow2 (w - 1) then (n : Int) else (n : Int) - (pow2 w : Nat)

/-- Outcome of a Go read call: a value with a nil error, a value returned
alongside a non-nil error, or a run-time panic. -/
inductive GoResult (α : Type) where
  | ok (val : α) (rest : Source)
  | err (val : α) (rest : Source)
  | panic
  deriving DecidableEq, Repr

/-- A byte sink: bytes written so far and the per-call success plan of the
underlying writer (an exhausted plan means every call succeeds). -/
structure Sink where
  plan : List Bool
  out : List Nat
  deriving DecidableEq, Repr

/-- One `Write` call on the sink; the `Bool` is true when the writer
returned a non-nil error (in which case nothing was written). -/
def goWrite (bs : List Nat) (s : Sink) : Sink × Bool :=
  match s.plan with
  | [] => ({ plan := [], out := s.out ++ bs }, false)
  | accept :: rest =>
      if accept then ({ plan := rest, out := s.out ++ bs }, false)
      else ({ plan := rest, out := s.out }, true)

/-- A fresh sink whose writer always succeeds. -/
def emptySink : Sink := { plan := [], out := [] }

/-- A fully buffered source holding exactly the bytes `bs`. -/
def oneChunk (bs : List Nat) : Source :=
  if bs = [] then [] else [bs]

/-- Concatenation of a list of byte lists. -/
def concatAll : List (List Nat) → List Nat
  | [] => []
  | l :: ls => l ++ concatAll ls

/-- Fuelled floor of log base 2 (fuel-structural so it reduces in the
kernel); `floorLog2 n` is exact whenever the fuel `n` suffices, which it
does for every positive `n`. -/
def floorLog2Aux : Nat → Nat → Nat
  | 0, _ => 0
  | fuel + 1, n => if n ≤ 1 then 0 else floorLog2Aux fuel (n / 2) + 1

/-- Floor of log base 2 of a positive natural number. -/
def floorLog2 (n : Nat) : Nat := floorLog2Aux n n

/-- Go numeric conversion `uint64(d)` applied to the float64 whose IEEE-754
bit pattern is `b`: the fraction is discarded (truncation toward zero).
Cases the Go spec leaves implementation-defined (NaN, infinities, negative
values with nonzero truncation, values at or above `2 ^ 64`) are modelled
as 0; no theorem below depends on those cases. -/
def goF64ToU64 (b : Nat) : Nat :=
  let e := b / pow2 52 % pow2 11
  let f := b % pow2 52
  if e = 2047 then 0
  else
    let t : Nat :=
      if e = 0 then 0
      else if e < 1075 then (pow2 52 + f) / pow2 (1075 - e)
      else (pow2 52 + f) * pow2 (e - 1075)
    if b / pow2 63 % 2 = 1 then 0
    else if t < pow2 64 then t else 0

/-- Go numeric conversion `float64(n)` for an unsigned 64-bit value `n`,
returning the IEEE-754 bit pattern of the nearest double (ties to even). -/
def goU64ToF64 (n : Nat) : Nat :=
  if n = 0 then 0
  else
    let k := floorLog2 n
    if k ≤ 52 then (1023 + k) * pow2 52 + (n * pow2 (52 - k) - pow2 52)
    else
      let d := pow2 (k - 52)
      let q := n / d
      let r := n % d
      let m :=
        if 2 * r < d then q
        else if 2 * r > d then q + 1
        else if q % 2 = 0 then q else q + 1
      if m = pow2 53 then (1024 + k) * pow2 52
      else (1023 + k) * pow2 52 + (m - pow2 52)

/-- `writeProtoVersion` : writes the single protocol version byte. -/
def writeProtoVersion (s : Sink) : Sink × Bool :=
  goWrite [protoVersion] s

/-- `writeByte` : writes `byte(d)` for a signed 8-bit value `d`. -/
def writeByte (d : Int) (s : Sink) : Sink × Bool :=
  goWrite [toUnsigned 8 d] s

/-- `writeBoolean` : writes `0x1` for true, `0x0` for false, via
`writeByte`. -/
def writeBoolean (d : Bool) (s : Sink) : Sink × Bool :=
  if d then writeByte 1 s else writeByte 0 s

/-- `readByte` : one `Read` into a 1-byte buffer, result `int8(b[0])`;
on error returns `(0, err)`. -/
def readByte (src : Source) : GoResult Int :=
  match readN 1 src with
  | none => .err 0 src
  | some (got, rest) => .ok (toSigned 8 (beUint (pad 1 got))) rest

/-- `readBoolean` : reads a byte and returns `val != 0`; on error returns
`(false, err)`. -/
def readBoolean (src : Source) : GoResult Bool :=
  match readByte src with
  | .ok v rest => .ok (decide (v ≠ 0)) rest
  | .err _ rest => .err false rest
  | .panic => .panic

/-- `writeShort` : `PutUint16(bs, uint16(d))` then one `Write`. -/
def writeShort (d : Int) (s : Sink) : Sink × Bool :=
  goWrite (beBytes 2 (toUnsigned 16 d)) s

/-- `readShort` : one `Read` into a 2-byte buffer, result
`int16(Uint16(bs))`; on error returns `(0, err)`. -/
def readShort (src : Source) : GoResult Int :=
  match readN 2 src with
  | none => .err 0 src
  | some (got, rest) => .ok (toSigned 16 (beUint (pad 2 got))) rest

/-- `writeInt` : `PutUint32(bs, uint32(d))` then one `Write`. -/
def writeInt (d : Int) (s : Sink) : Sink × Bool :=
  goWrite (beBytes 4 (toUnsigned 32 d)) s

/-- `readInt` : one `Read` into a 4-byte buffer, result
`int32(Uint32(bs))`; on error returns `(0, err)`. -/
def readInt (src : Source) : GoResult Int :=
  match readN 4 src with
  | none => .err 0 src
  | some (got, rest) => .ok (toSigned 32 (beUint (pad 4 got))) rest

/-- `writeLong` : `PutUint64(bs, uint64(d))` then one `Write`. -/
def writeLong (d : Int) (s : Sink) : Sink × Bool :=
  goWrite (beBytes 8 (toUnsigned 64 d)) s

/-- `readLong` : one `Read` into an 8-byte buffer, result
`int64(Uint64(bs))`; on error returns `(0, err)`. -/
def readLong (src : Source) : GoResult Int :=
  match readN 8 src with
  | none => .err 0 src
  | some (got, rest) => .ok (toSigned 64 (beUint (pad 8 got))) rest

/-- `writeFloat` : the source computes `PutUint64(bs, uint64(d))`, i.e. a
NUMERIC conversion of the float64 argument `d` (here given by its bit
pattern `bits`), then one `Write`. -/
def writeFloat (bits : Nat) (s : Sink) : Sink × Bool :=
  goWrite (beBytes 8 (goF64ToU64 bits)) s

/-- `readFloat` : one `Read` into an 8-byte buffer, result
`float64(Uint64(bs))`, a numeric conversion whose result is returned as a
bit pattern; on error returns `(0, err)`. -/
def readFloat (src : Source) : GoResult Nat :=
  match readN 8 src with
  | none => .err 0 src
  | some (got, rest) => .ok (goU64ToF64 (beUint (pad 8 got))) rest

/-- `writeString` : `writeInt(w, int32(len(d)))` with its error DISCARDED
(as in the source), then one `Write` of the raw bytes. -/
def writeString (d : List Nat) (s : Sink) : Sink × Bool :=
  let r1 := writeInt (d.length : Int) s
  goWrite d r1.1

/-- `readString` : reads a 4-byte length, allocates `make([]byte, length)`
(a Go run-time panic when the length is negative), performs one `Read`
into that buffer and returns its full contents as the string; on a read
error returns `("", err)`. -/
def readString (src : Source) : GoResult (List Nat) :=
  match readInt src with
  | .panic => .panic
  | .err _ rest => .err [] rest
  | .ok len rest =>
      if len < 0 then .panic
      else
        match readN len.toNat rest with
        | none => .err [] rest
        | some (got, rest2) => .ok (pad len.toNat got) rest2

/-- The element loop of `readByteArray`: `cnt` iterations of `readByte`,
returning `(nil, err)` as soon as one fails. -/
def readBytesLoop : Nat → Source → GoResult (List Int)
  | 0, src => .ok [] src
  | n + 1, src =>
      match readByte src with
      | .panic => .panic
      | .err _ rest => .err [] rest
      | .ok v rest =>
          match readBytesLoop n rest with
          | .panic => .panic
          | .err _ rest2 => .err [] rest2
          | .ok vs rest2 => .ok (v :: vs) rest2

/-- `readByteArray` : 4-byte count via `readInt`, then
`make([]int8, cnt)` (a Go run-time panic when the count is negative) and
one `readByte` per element. -/
def readByteArray (src : Source) : GoResult (List Int) :=
  match readInt src with
  | .panic => .panic
  | .err _ rest => .err [] rest
  | .ok cnt rest =>
      if cnt < 0 then .panic
      else readBytesLoop cnt.toNat rest

/-- The element loop of `readStringArray`: `cnt` iterations of
`readString`, returning `(nil, err)` as soon as one fails. -/
def readStringsLoop : Nat → Source → GoResult (List (List Nat))
  | 0, src => .ok [] src
  | n + 1, src =>
      match readString src with
      | .panic => .panic
      | .err _ rest => .err [] rest
      | .ok v rest =>
          match readStringsLoop n rest with
          | .panic => .panic
          | .err _ rest2 => .err [] rest2
          | .ok vs rest2 => .ok (v :: vs) rest2

/-- `readStringArray` : 2-byte count via `readShort`, then
`make([]string, cnt)` (a Go run-time panic when the count is negative)
and one `readString` per element. -/
def readStringArray (src : Source) : GoResult (List (List Nat)) :=
  match readShort src with
  | .panic => .panic
  | .err _ rest => .err [] rest
  | .ok cnt rest =>
      if cnt < 0 then .panic
      else readStringsLoop cnt.toNat rest

/-- `writeByteString` : `writeInt(w, int32(len(d)))` with its error
DISCARDED (as in the source), then one `Write` of the raw bytes. -/
def writeByteString (d : List Nat) (s : Sink) : Sink × Bool :=
  let r1 := writeInt (d.length : Int) s
  goWrite d r1.1

/-- The byte encoding `writeString` emits on a fresh, always-succeeding
sink. -/
def encodeString (s : List Nat) : List Nat :=
  ((writeString s emptySink).1).out

/-- The float64 encoding the spec prescribes (design note on
floating-point): view the value's 64-bit IEEE-754 bit pattern as an
unsigned 64-bit integer and write it big-endian, with no numeric
conversion.  Stated for comparison with `writeFloat` above. -/
def writeFloatSpec (bits : Nat) : List Nat :=
  beBytes 8 bits

/-- Holds when a read outcome, if it is an error return, carries `z` as
its accompanying value. -/
def errValIs {α : Type} (r : GoResult α) (z : α) : Prop :=
  match r with
  | .err v _ => v = z
  | _ => True



lemma beUint_append (l : List Nat) (b : Nat) :
    beUint (l ++ [b]) = beUint l * 256 + b := by
  simp [beUint, List.foldl_append]

lemma beUint_singleton (b : Nat) : beUint [b] = b := by
  simp [beUint]

lemma beBytes_length (w n : Nat) : (beBytes w n).length = w := by
  induction w generalizing n with
  | zero => simp [beBytes]
  | succ k ih => simp [beBytes, ih]

lemma beUint_beBytes (w n : Nat) : beUint (beBytes w n) = n % 2 ^ (8 * w) := by
  induction w generalizing n with
  | zero => simp [beBytes, beUint, Nat.mod_one]
  | succ k ih =>
      rw [beBytes, beUint_append, ih]
      have hpow : (2 : Nat) ^ (8 * (k + 1)) = 256 * 2 ^ (8 * k) := by
        rw [Nat.mul_succ, pow_add]
        ring
      rw [hpow]
      have h1 := Nat.mod_mul_right_div_self n 256 (2 ^ (8 * k))
      have h2 : n % (256 * 2 ^ (8 * k)) % 256 = n % 256 :=
        Nat.mod_mod_of_dvd n ⟨2 ^ (8 * k), rfl⟩
      have h3 := Nat.div_add_mod (n % (256 * 2 ^ (8 * k))) 256
      calc n / 256 % 2 ^ (8 * k) * 256 + n % 256
          = 256 * (n % (256 * 2 ^ (8 * k)) / 256) + n % (256 * 2 ^ (8 * k)) % 256 := by
            rw [h1, h2]; ring
        _ = n % (256 * 2 ^ (8 * k)) := h3

lemma pad_of_length (w : Nat) (l : List Nat) (h : l.length = w) : pad w l = l := by
  simp [pad, h]

lemma take_append_of_length : ∀ (a b : List Nat), (a ++ b).take a.length = a := by
  intro a
  induction a with
  | nil => simp
  | cons x t ih => intro b; simp [ih]

lemma drop_append_of_length : ∀ (a b : List Nat), (a ++ b).drop a.length = b := by
  intro a
  induction a with
  | nil => simp
  | cons x t ih => intro b; simp [ih]

lemma oneChunk_nil : oneChunk [] = [] := rfl

lemma readN_exact (w : Nat) (pre t : List Nat) (h : pre.length = w) :
    readN w (oneChunk (pre ++ t)) = some (pre, oneChunk t) := by
  subst h
  cases pre with
  | nil => simp [readN, oneChunk]
  | cons x p =>
      have hne : (x :: p) ++ t ≠ [] := by simp
      have h1 := take_append_of_length (x :: p) t
      have h2 := drop_append_of_length (x :: p) t
      rw [oneChunk, if_neg hne, readN]
      simp only [List.length_cons, Nat.succ_ne_zero, if_false, h1, h2]
      by_cases ht : t = [] <;> simp [oneChunk, ht]

lemma readN_oneChunk (w : Nat) (pre : List Nat) (h : pre.length = w) :
    readN w (oneChunk pre) = some (pre, ([] : Source)) := by
  have h2 := readN_exact w pre [] h
  rw [List.append_nil] at h2
  simpa [oneChunk] using h2



lemma toSigned_toUnsigned_8 (v : Int) (h1 : -(2 ^ 7) ≤ v) (h2 : v < 2 ^ 7) :
    toSigned 8 (toUnsigned 8 v) = v := by
  simp only [toSigned, toUnsigned, pow2]
  split <;> omega

lemma toSigned_toUnsigned_16 (v : Int) (h1 : -(2 ^ 15) ≤ v) (h2 : v < 2 ^ 15) :
    toSigned 16 (toUnsigned 16 v) = v := by
  simp only [toSigned, toUnsigned, pow2]
  split <;> omega

lemma toSigned_toUnsigned_32 (v : Int) (h1 : -(2 ^ 31) ≤ v) (h2 : v < 2 ^ 31) :
    toSigned 32 (toUnsigned 32 v) = v := by
  simp only [toSigned, toUnsigned, pow2]
  split <;> omega

lemma toSigned_toUnsigned_64 (v : Int) (h1 : -(2 ^ 63) ≤ v) (h2 : v < 2 ^ 63) :
    toSigned 64 (toUnsigned 64 v) = v := by
  simp only [toSigned, toUnsigned, pow2]
  split <;> omega

lemma toUnsigned_lt (w : Nat) (v : Int) : toUnsigned w v < 2 ^ w := by
  simp only [toUnsigned, pow2]
  have hpos : (0 : Int) < ((2 ^ w : Nat) : Int) := by positivity
  have hlt := Int.emod_lt_of_pos v hpos
  have hnn := Int.emod_nonneg v (ne_of_gt hpos)
  omega

lemma toUnsigned_32_ofNat (n : Nat) (h : n < 2 ^ 32) : toUnsigned 32 (n : Int) = n := by
  simp only [toUnsigned, pow2]
  omega

lemma toSigned_16_of_small (n : Nat) (h : n < 2 ^ 15) : toSigned 16 n = (n : Int) := by
  simp only [toSigned, pow2]
  split <;> omega

lemma toSigned_32_of_small (n : Nat) (h : n < 2 ^ 31) : toSigned 32 n = (n : Int) := by
  simp only [toSigned, pow2]
  split <;> omega

lemma readByte_cons (b : Nat) (t : List Nat) :
    readByte (oneChunk (b :: t)) = .ok (toSigned 8 b) (oneChunk t) := by
  have h := readN_exact 1 [b] t rfl
  rw [List.singleton_append] at h
  rw [readByte, h]
  simp [pad, beUint]

lemma readShort_chunk (pre t : List Nat) (h : pre.length = 2) :
    readShort (oneChunk (pre ++ t)) = .ok (toSigned 16 (beUint pre)) (oneChunk t) := by
  rw [readShort, readN_exact 2 pre t h]
  simp [pad_of_length 2 pre h]

lemma readInt_chunk (pre t : List Nat) (h : pre.length = 4) :
    readInt (oneChunk (pre ++ t)) = .ok (toSigned 32 (beUint pre)) (oneChunk t) := by
  rw [readInt, readN_exact 4 pre t h]
  simp [pad_of_length 4 pre h]

lemma readLong_chunk (pre t : List Nat) (h : pre.length = 8) :
    readLong (oneChunk (pre ++ t)) = .ok (toSigned 64 (beUint pre)) (oneChunk t) := by
  rw [readLong, readN_exact 8 pre t h]
  simp [pad_of_length 8 pre h]

lemma encodeString_eq (s : List Nat) :
    encodeString s = beBytes 4 (toUnsigned 32 (s.length : Int)) ++ s := by
  simp [encodeString, writeString, writeInt, goWrite, emptySink]

lemma readString_chunk (s t : List Nat) (h : s.length < 2 ^ 31) :
    readString (oneChunk (encodeString s ++ t)) = .ok s (oneChunk t) := by
  have h32 : s.length < 2 ^ 32 := by omega
  have hmod : s.length % 2 ^ (8 * 4) = s.length := Nat.mod_eq_of_lt (by omega)
  have hneg : ¬ ((s.length : Int) < 0) := by omega
  have htn : ((s.length : Int)).toNat = s.length := by omega
  rw [encodeString_eq, toUnsigned_32_ofNat s.length h32, List.append_assoc]
  simp only [readString, readInt_chunk (beBytes 4 s.length) (s ++ t) (beBytes_length 4 _),
    beUint_beBytes, hmod, toSigned_32_of_small s.length h, if_neg hneg, htn,
    readN_exact s.length s t rfl, pad_of_length s.length s rfl]

lemma readBytesLoop_chunk (bs : List Nat) :
    readBytesLoop bs.length (oneChunk bs) = .ok (bs.map (fun b => toSigned 8 b)) [] := by
  induction bs with
  | nil => simp [readBytesLoop, oneChunk]
  | cons b t ih =>
      simp only [List.length_cons, readBytesLoop, readByte_cons, ih, List.map_cons]

lemma readStringsLoop_chunk (ss : List (List Nat)) (h : ∀ s ∈ ss, s.length < 2 ^ 31) :
    readStringsLoop ss.length (oneChunk (concatAll (ss.map encodeString))) = .ok ss [] := by
  induction ss with
  | nil => simp [readStringsLoop, concatAll, oneChunk]
  | cons s t ih =>
      have hs : s.length < 2 ^ 31 := h s (by simp)
      have ht : ∀ x ∈ t, x.length < 2 ^ 31 := fun x hx => h x (by simp [hx])
      simp only [List.map_cons, concatAll, List.length_cons, readStringsLoop,
        readString_chunk s (concatAll (t.map encodeString)) hs, ih ht]


lemma errValIs_readByte (src : Source) : errValIs (readByte src) 0 := by
  rw [readByte]
  cases h : readN 1 src with
  | none => simp [errValIs]
  | some p => obtain ⟨got, rest⟩ := p; simp [errValIs]

lemma errValIs_readBoolean (src : Source) : errValIs (readBoolean src) false := by
  rw [readBoolean]
  cases h : readByte src with
  | ok v rest => simp [errValIs]
  | err v rest => simp [errValIs]
  | panic => simp [errValIs]

lemma errValIs_readShort (src : Source) : errValIs (readShort src) 0 := by
  rw [readShort]
  cases h : readN 2 src with
  | none => simp [errValIs]
  | some p => obtain ⟨got, rest⟩ := p; simp [errValIs]

lemma errValIs_readInt (src : Source) : errValIs (readInt src) 0 := by
  rw [readInt]
  cases h : readN 4 src with
  | none => simp [errValIs]
  | some p => obtain ⟨got, rest⟩ := p; simp [errValIs]

lemma errValIs_readLong (src : Source) : errValIs (readLong src) 0 := by
  rw [readLong]
  cases h : readN 8 src with
  | none => simp [errValIs]
  | some p => obtain ⟨got, rest⟩ := p; simp [errValIs]

lemma errValIs_readFloat (src : Source) : errValIs (readFloat src) 0 := by
  rw [readFloat]
  cases h : readN 8 src with
  | none => simp [errValIs]
  | some p => obtain ⟨got, rest⟩ := p; simp [errValIs]

lemma errValIs_readString (src : Source) : errValIs (readString src) [] := by
  rw [readString]
  cases h : readInt src with
  | panic => simp [errValIs]
  | err v rest => simp [errValIs]
  | ok v rest =>
      by_cases hv : v < 0
      · simp [errValIs, hv]
      · simp only [if_neg hv]
        cases h2 : readN v.toNat rest with
        | none => simp [errValIs]
        | some p => obtain ⟨got, rest2⟩ := p; simp [errValIs]

lemma errValIs_readBytesLoop (n : Nat) (src : Source) :
    errValIs (readBytesLoop n src) [] := by
  cases n with
  | zero => simp [readBytesLoop, errValIs]
  | succ k =>
      rw [readBytesLoop]
      cases h : readByte src with
      | panic => simp [errValIs]
      | err v rest => simp [errValIs]
      | ok v rest =>
          cases h2 : readBytesLoop k rest with
          | panic => simp [errValIs, h2]
          | err v2 r2 => simp [errValIs, h2]
          | ok v2 r2 => simp [errValIs, h2]

lemma errValIs_readByteArray (src : Source) : errValIs (readByteArray src) [] := by
  rw [readByteArray]
  cases h : readInt src with
  | panic => simp [errValIs]
  | err v rest => simp [errValIs]
  | ok v rest =>
      by_cases hv : v < 0
      · simp [errValIs, hv]
      · simp only [if_neg hv]
        exact errValIs_readBytesLoop v.toNat rest

lemma errValIs_readStringsLoop (n : Nat) (src : Source) :
    errValIs (readStringsLoop n src) [] := by
  cases n with
  | zero => simp [readStringsLoop, errValIs]
  | succ k =>
      rw [readStringsLoop]
      cases h : readString src with
      | panic => simp [errValIs]
      | err v rest => simp [errValIs]
      | ok v rest =>
          cases h2 : readStringsLoop k rest with
          | panic => simp [errValIs, h2]
          | err v2 r2 => simp [errValIs, h2]
          | ok v2 r2 => simp [errValIs, h2]

lemma errValIs_readStringArray (src : Source) : errValIs (readStringArray src) [] := by
  rw [readStringArray]
  cases h : readShort src with
  | panic => simp [errValIs]
  | err v rest => simp [errValIs]
  | ok v rest =>
      by_cases hv : v < 0
      · simp [errValIs, hv]
      · simp only [if_neg hv]
        exact errValIs_readStringsLoop v.toNat rest


/-- C1: the claim that `writeFloat` encodes a float64 by reinterpreting its
bit pattern as an unsigned 64-bit integer written big-endian (with
`readFloat` the inverse, so the round trip is bit-for-bit) FAILS on the
code, which converts numerically via `uint64(d)`.  At the value 3.5 (bit
pattern 0x400C000000000000) the code writes the bytes of the integer 3,
the spec-prescribed encoding `writeFloatSpec` writes the bit-pattern
bytes, and writing then reading back yields 3.0 (bit pattern
0x4008000000000000), not 3.5. -/
theorem writeFloat_numeric_conversion_divergence :
    (writeFloat 0x400C000000000000 emptySink).1.out = [0, 0, 0, 0, 0, 0, 0, 3]
    ∧ writeFloatSpec 0x400C000000000000 = [0x40, 0x0C, 0, 0, 0, 0, 0, 0]
    ∧ readFloat (oneChunk ((writeFloat 0x400C000000000000 emptySink).1.out)) =
        .ok 0x4008000000000000 []
    ∧ (0x4008000000000000 : Nat) ≠ 0x400C000000000000 := by
  refine ⟨by decide, by decide, by decide, by decide⟩

/-- C2: the claim that a negative 4-byte (readString, readByteArray) or
2-byte (readStringArray) length prefix makes the read fail with a
malformed-length error FAILS on the code: no sign check precedes the
`make` call, so a negative prefix causes a Go run-time panic
(`makeslice: len out of range`), not an error return.  The bytes below
decode to the length -1. -/
theorem negative_length_prefix_panics :
    readString (oneChunk [255, 255, 255, 255]) = .panic
    ∧ readByteArray (oneChunk [255, 255, 255, 255]) = .panic
    ∧ readStringArray (oneChunk [255, 255]) = .panic := by
  refine ⟨by decide, by decide, by decide⟩

/-- C3: the claim that a failed 4-byte length-prefix write inside
`writeString` or `writeByteString` is reported to the caller FAILS on the
code, which discards the error returned by `writeInt`.  On a sink whose
first `Write` (the prefix) fails and whose second (the payload) succeeds,
both functions return a nil error even though the four declared prefix
bytes were never written. -/
theorem writeString_swallows_prefix_write_error :
    writeString [97] { plan := [false, true], out := [] } =
      ({ plan := [], out := [97] }, false)
    ∧ writeByteString [97] { plan := [false, true], out := [] } =
      ({ plan := [], out := [97] }, false) := by
  refine ⟨by decide, by decide⟩

/-- C4: the claim that every read loops on short reads until its declared
byte count is satisfied FAILS on the code, which issues a single `Read`
and ignores the returned byte count.  On a source that delivers the
8-byte encoding of the long 1 in two 4-byte chunks, `readLong` succeeds
after the first chunk and decodes the half-filled, zero-padded buffer to
0; likewise `readString` succeeds with a zero-padded string when the
payload is split.  On a fully buffered source the same bytes decode
correctly, isolating the short-read handling as the cause. -/
theorem short_read_accepted_without_retry :
    readLong [[0, 0, 0, 0], [0, 0, 0, 1]] = .ok 0 [[0, 0, 0, 1]]
    ∧ readLong [[0, 0, 0, 0, 0, 0, 0, 1]] = .ok 1 []
    ∧ readString [[0, 0, 0, 2, 97], [98]] = .ok [97, 0] [[98]]
    ∧ readString [[0, 0, 0, 2, 97, 98]] = .ok [97, 98] [] := by
  refine ⟨by decide, by decide, by decide, by decide⟩

/-- C5: writing a signed value of width 8/16/32/64 bits with
writeByte/writeShort/writeInt/writeLong and reading it back with the
matching read yields exactly the original value, for every value in the
representable range (including zero, the minimum and the maximum). -/
theorem scalar_write_read_roundTrip (v : Int) :
    ((-(2 ^ 7) ≤ v ∧ v < 2 ^ 7) →
      readByte (oneChunk ((writeByte v emptySink).1.out)) = .ok v [])
    ∧ ((-(2 ^ 15) ≤ v ∧ v < 2 ^ 15) →
      readShort (oneChunk ((writeShort v emptySink).1.out)) = .ok v [])
    ∧ ((-(2 ^ 31) ≤ v ∧ v < 2 ^ 31) →
      readInt (oneChunk ((writeInt v emptySink).1.out)) = .ok v [])
    ∧ ((-(2 ^ 63) ≤ v ∧ v < 2 ^ 63) →
      readLong (oneChunk ((writeLong v emptySink).1.out)) = .ok v []) := by
  refine ⟨fun h => ?_, fun h => ?_, fun h => ?_, fun h => ?_⟩
  · have hout : (writeByte v emptySink).1.out = [toUnsigned 8 v] := rfl
    have hrd := readByte_cons (toUnsigned 8 v) []
    rw [oneChunk_nil] at hrd
    rw [hout, hrd, toSigned_toUnsigned_8 v h.1 h.2]
  · have hout : (writeShort v emptySink).1.out = beBytes 2 (toUnsigned 16 v) := rfl
    have hch := readShort_chunk (beBytes 2 (toUnsigned 16 v)) [] (beBytes_length 2 _)
    rw [List.append_nil, oneChunk_nil] at hch
    have hlt : toUnsigned 16 v < 2 ^ (8 * 2) := by
      have := toUnsigned_lt 16 v; omega
    rw [hout, hch, beUint_beBytes, Nat.mod_eq_of_lt hlt,
      toSigned_toUnsigned_16 v h.1 h.2]
  · have hout : (writeInt v emptySink).1.out = beBytes 4 (toUnsigned 32 v) := rfl
    have hch := readInt_chunk (beBytes 4 (toUnsigned 32 v)) [] (beBytes_length 4 _)
    rw [List.append_nil, oneChunk_nil] at hch
    have hlt : toUnsigned 32 v < 2 ^ (8 * 4) := by
      have := toUnsigned_lt 32 v; omega
    rw [hout, hch, beUint_beBytes, Nat.mod_eq_of_lt hlt,
      toSigned_toUnsigned_32 v h.1 h.2]
  · have hout : (writeLong v emptySink).1.out = beBytes 8 (toUnsigned 64 v) := rfl
    have hch := readLong_chunk (beBytes 8 (toUnsigned 64 v)) [] (beBytes_length 8 _)
    rw [List.append_nil, oneChunk_nil] at hch
    have hlt : toUnsigned 64 v < 2 ^ (8 * 8) := by
      have := toUnsigned_lt 64 v; omega
    rw [hout, hch, beUint_beBytes, Nat.mod_eq_of_lt hlt,
      toSigned_toUnsigned_64 v h.1 h.2]

/-- C5 witness: the round trip evaluated at the width extremes and zero. -/
theorem scalar_write_read_roundTrip_extremes :
    readByte (oneChunk ((writeByte (-(2 ^ 7)) emptySink).1.out)) = .ok (-(2 ^ 7)) []
    ∧ readShort (oneChunk ((writeShort (2 ^ 15 - 1) emptySink).1.out)) = .ok (2 ^ 15 - 1) []
    ∧ readInt (oneChunk ((writeInt (-(2 ^ 31)) emptySink).1.out)) = .ok (-(2 ^ 31)) []
    ∧ readLong (oneChunk ((writeLong (2 ^ 63 - 1) emptySink).1.out)) = .ok (2 ^ 63 - 1) []
    ∧ readLong (oneChunk ((writeLong 0 emptySink).1.out)) = .ok 0 [] :=
  ⟨(scalar_write_read_roundTrip (-(2 ^ 7))).1 (by norm_num),
   (scalar_write_read_roundTrip (2 ^ 15 - 1)).2.1 (by norm_num),
   (scalar_write_read_roundTrip (-(2 ^ 31))).2.2.1 (by norm_num),
   (scalar_write_read_roundTrip (2 ^ 63 - 1)).2.2.2 (by norm_num),
   (scalar_write_read_roundTrip 0).2.2.2 (by norm_num)⟩

/-- C6: `writeBoolean` writes exactly one byte, `0x01` for true and
`0x00` for false; `readBoolean` reads exactly one byte and returns true
iff that byte is nonzero (so 0x07 decodes as true, not only 0x01). -/
theorem boolean_codec (b : Nat) (rest : Source) :
    (writeBoolean true emptySink).1.out = [1]
    ∧ (writeBoolean false emptySink).1.out = [0]
    ∧ (b < 256 → readBoolean ([b] :: rest) = .ok (decide (b ≠ 0)) rest) := by
  refine ⟨rfl, rfl, fun hb => ?_⟩
  have h1 : readN 1 ([b] :: rest) = some ([b], rest) := rfl
  rw [readBoolean, readByte, h1]
  simp only [pad, List.length_cons, List.length_nil, Nat.sub_self,
    List.replicate, List.append_nil, beUint_singleton]
  have hiff : (toSigned 8 b ≠ 0) ↔ (b ≠ 0) := by
    simp only [toSigned, pow2]
    split <;> omega
  rw [decide_eq_decide.mpr hiff]

/-- C6 witness: the stream byte 0x07 decodes as true. -/
theorem boolean_codec_witness :
    readBoolean [[7]] = .ok true [] :=
  (boolean_codec 7 []).2.2 (by norm_num)

/-- C7: `writeString` emits exactly a 4-byte big-endian length equal to
the byte length of the string followed by its raw bytes with no
terminator; the empty string encodes as four zero bytes and no payload;
and `readString` applied to the produced encoding yields the original
string back. -/
theorem string_codec (s : List Nat) (h : s.length < 2 ^ 31) :
    (writeString s emptySink).1.out = beBytes 4 s.length ++ s
    ∧ (writeString ([] : List Nat) emptySink).1.out = [0, 0, 0, 0]
    ∧ readString (oneChunk ((writeString s emptySink).1.out)) = .ok s [] := by
  have h32 : s.length < 2 ^ 32 := by omega
  have henc : (writeString s emptySink).1.out = beBytes 4 s.length ++ s := by
    have := encodeString_eq s
    rw [toUnsigned_32_ofNat s.length h32] at this
    simpa [encodeString] using this
  refine ⟨henc, by decide, ?_⟩
  have hrd := readString_chunk s [] h
  rw [List.append_nil, oneChunk_nil] at hrd
  have : oneChunk (encodeString s) = oneChunk ((writeString s emptySink).1.out) := rfl
  rw [← this, hrd]

/-- C7 witness: the two-byte string "ok" round-trips, and the empty
string encodes as four zero bytes. -/
theorem string_codec_witness :
    (writeString [111, 107] emptySink).1.out = beBytes 4 2 ++ [111, 107]
    ∧ (writeString ([] : List Nat) emptySink).1.out = [0, 0, 0, 0]
    ∧ readString (oneChunk ((writeString [111, 107] emptySink).1.out)) = .ok [111, 107] [] :=
  string_codec [111, 107] (by norm_num)

/-- C8: `readStringArray` reads a 2-byte count prefix followed by exactly
that many strings (each per the string encoding), while `readByteArray`
reads a 4-byte count prefix followed by exactly that many single-byte
elements; the statement exhibits both widths (`beBytes 2` versus
`beBytes 4`) on the respective inputs. -/
theorem array_count_prefix_widths :
    (∀ ss : List (List Nat), ss.length < 2 ^ 15 → (∀ s ∈ ss, s.length < 2 ^ 31) →
      readStringArray (oneChunk (beBytes 2 ss.length ++ concatAll (ss.map encodeString))) =
        .ok ss [])
    ∧ (∀ bs : List Nat, bs.length < 2 ^ 31 →
      readByteArray (oneChunk (beBytes 4 bs.length ++ bs)) =
        .ok (bs.map (fun b => toSigned 8 b)) []) := by
  constructor
  · intro ss hlen hall
    have hch := readShort_chunk (beBytes 2 ss.length) (concatAll (ss.map encodeString))
      (beBytes_length 2 _)
    have hmod : ss.length % 2 ^ (8 * 2) = ss.length := Nat.mod_eq_of_lt (by omega)
    have hneg : ¬ ((ss.length : Int) < 0) := by omega
    have htn : ((ss.length : Int)).toNat = ss.length := by omega
    simp only [readStringArray, hch, beUint_beBytes, hmod,
      toSigned_16_of_small ss.length hlen, if_neg hneg, htn,
      readStringsLoop_chunk ss hall]
  · intro bs hlen
    have hch := readInt_chunk (beBytes 4 bs.length) bs (beBytes_length 4 _)
    have hmod : bs.length % 2 ^ (8 * 4) = bs.length := Nat.mod_eq_of_lt (by omega)
    have hneg : ¬ ((bs.length : Int) < 0) := by omega
    have htn : ((bs.length : Int)).toNat = bs.length := by omega
    simp only [readByteArray, hch, beUint_beBytes, hmod,
      toSigned_32_of_small bs.length hlen, if_neg hneg, htn,
      readBytesLoop_chunk bs]

/-- C8 witness: a two-element string array behind a 2-byte count and a
two-element byte array behind a 4-byte count, both fully decoded. -/
theorem array_count_prefix_widths_witness :
    readStringArray [[0, 2, 0, 0, 0, 1, 97, 0, 0, 0, 0]] = .ok [[97], []] []
    ∧ readByteArray [[0, 0, 0, 2, 255, 1]] = .ok [-1, 1] [] :=
  ⟨(array_count_prefix_widths).1 [[97], []] (by norm_num) (by decide),
   (array_count_prefix_widths).2 [255, 1] (by norm_num)⟩

/-- C9: `writeProtoVersion` appends exactly one byte to any sink whose
writer accepts it, and that byte is the protocol version constant, 1. -/
theorem writeProtoVersion_single_version_byte (out : List Nat) :
    writeProtoVersion { plan := [], out := out } =
      ({ plan := [], out := out ++ [protoVersion] }, false)
    ∧ protoVersion = 1 :=
  ⟨rfl, rfl⟩

/-- C10: whenever a read operation returns an error, the value returned
with it is the zero value of its result type: false for readBoolean, 0
for the numeric reads, the empty string for readString, and the empty
sequence for readByteArray/readStringArray. -/
theorem read_error_returns_zero_value (src : Source) :
    errValIs (readBoolean src) false
    ∧ errValIs (readByte src) 0
    ∧ errValIs (readShort src) 0
    ∧ errValIs (readInt src) 0
    ∧ errValIs (readLong src) 0
    ∧ errValIs (readFloat src) 0
    ∧ errValIs (readString src) []
    ∧ errValIs (readByteArray src) []
    ∧ errValIs (readStringArray src) [] :=
  ⟨errValIs_readBoolean src, errValIs_readByte src, errValIs_readShort src,
   errValIs_readInt src, errValIs_readLong src, errValIs_readFloat src,
   errValIs_readString src, errValIs_readByteArray src,
   errValIs_readStringArray src⟩

end Voltdb
